import Mathlib

/-!
Verification of the PNG container parser in src/png.rs (the final iteration of
the repository, per the specification). Byte streams are modelled as List Nat
with entries below 256; u32 arithmetic is modelled on Nat (no operation here
can overflow 32 bits, which is proved where needed). Fallible code returns
Except or Option; an assertion failure or out-of-bounds panic in the Rust code
is modelled as the Option value none, surfaced as a dedicated panic outcome.
-/

set_option maxRecDepth 16384

namespace Ruro

/-! ## CRC32 engine (src/png.rs lines 48-91) -/

/-- Eight iterations of the bit-reversed polynomial reduction step used by
make_crc_table: if the low bit is set, xor the polynomial 0xedb88320 into the
right-shifted accumulator, else just shift right. crcFold 8 n is the table
entry CRC_TABLE[n]. -/
def crcFold : Nat → Nat → Nat
  | 0, c => c
  | k + 1, c => crcFold k (if c &&& 1 ≠ 0 then 0xedb88320 ^^^ (c >>> 1) else c >>> 1)

/-- The lazily built static table of make_crc_table, modelled as the function
sending an index to the value the table holds there. -/
def CRC_TABLE (n : Nat) : Nat := crcFold 8 n

/-- Translation of update_crc: fold the table update over the buffer starting
from the given running value. -/
def update_crc (crc0 : Nat) (buf : List Nat) : Nat :=
  buf.foldl (fun c byte => CRC_TABLE ((c ^^^ byte) &&& 0xff) ^^^ (c >>> 8)) crc0

/-- Translation of crc: seed with all ones, run update_crc, complement. -/
def crc (buf : List Nat) : Nat := update_crc 0xffffffff buf ^^^ 0xffffffff

/-! ## Reference CRC-32, written from the specification words

The specification (section 4.1) describes the PNG/zlib CRC-32 as: a 256-entry
lookup table derived by the standard bit-reversed polynomial reduction over 8
iterations per slot with polynomial 0xEDB88320; a running update seeded at
0xFFFFFFFF that, for each byte, xors the low byte of the accumulator with the
input byte, indexes the table by that value and xors with the accumulator
shifted right 8 bits; and a final complement. The definitions below follow
those words with an explicit 256-entry table, for comparison with the
source-derived crc above. -/

/-- One reduction step from the specification words. -/
def refStep (c : Nat) : Nat := if c % 2 = 1 then (c / 2) ^^^ 0xEDB88320 else c / 2

/-- Iterated reduction steps. -/
def refIter : Nat → Nat → Nat
  | 0, c => c
  | k + 1, c => refIter k (refStep c)

/-- The explicit 256-entry table of the specification. -/
def refTable : List Nat := (List.range 256).map (refIter 8)

/-- The reference CRC-32 assembled from the specification words. -/
def crcReference (buf : List Nat) : Nat :=
  (buf.foldl (fun acc b => refTable.getD ((acc ^^^ b) &&& 0xff) 0 ^^^ acc / 256)
    0xffffffff) ^^^ 0xffffffff

/-! ## Data model (src/png.rs lines 9-46) -/

/-- One RGB palette entry. -/
structure RGB where
  r : Nat
  g : Nat
  b : Nat
deriving DecidableEq, Repr

/-- One chunk as produced by read_chunk. The Rust type_ field is a String
built from the four tag bytes by std str from_utf8; it is modelled as the
list of its UTF-8 bytes, which is the original four bytes when they are
valid UTF-8 and the empty list otherwise. -/
structure Chunk where
  size : Nat
  type_ : List Nat
  data : List Nat
  crc : Nat
deriving DecidableEq, Repr

/-- The error type PNGParseError of src/png.rs. -/
inductive PNGParseError where
  | InvalidFile (msg : String)
  | ParseError (msg : String)
  | EOF
deriving DecidableEq, Repr

/-- The PNGFile struct (the file handle itself is replaced by the byte stream
argument of parse; the HashMap of uninterpreted chunks is modelled as an
association list, faithful because the parse loop inserts strictly increasing
keys). -/
structure PNGFile where
  data : List Nat
  size : Nat
  width : Nat
  height : Nat
  pallette : List RGB
  bit_depth : Nat
  color_type : Nat
  filter_method : Nat
  compression_method : Nat
  interlace_method : Nat
  chunks : List (Nat × Chunk)
deriving DecidableEq, Repr

/-- The all-default PNGFile produced by PNGFile::init (Default derive). -/
def pngFileDefault : PNGFile :=
  { data := [], size := 0, width := 0, height := 0, pallette := [],
    bit_depth := 0, color_type := 0, filter_method := 0,
    compression_method := 0, interlace_method := 0, chunks := [] }

/-! ## UTF-8 validity, modelling std str from_utf8 on the 4 tag bytes -/

/-- A UTF-8 continuation byte. -/
def isUtf8Cont (b : Nat) : Bool := 0x80 ≤ b && b < 0xC0

/-- UTF-8 validity of a byte list, following the standard (RFC 3629) table
that std str from_utf8 implements: rejects overlong forms, surrogates and
code points above U+10FFFF. -/
def validUtf8 : List Nat → Bool
  | [] => true
  | b :: r =>
    if b < 0x80 then validUtf8 r
    else if b < 0xC2 then false
    else if b < 0xE0 then
      match r with
      | b1 :: r1 => isUtf8Cont b1 && validUtf8 r1
      | [] => false
    else if b = 0xE0 then
      match r with
      | b1 :: b2 :: r2 =>
          (0xA0 ≤ b1 && b1 < 0xC0) && (isUtf8Cont b2 && validUtf8 r2)
      | _ => false
    else if b < 0xED then
      match r with
      | b1 :: b2 :: r2 => isUtf8Cont b1 && (isUtf8Cont b2 && validUtf8 r2)
      | _ => false
    else if b = 0xED then
      match r with
      | b1 :: b2 :: r2 =>
          (0x80 ≤ b1 && b1 < 0xA0) && (isUtf8Cont b2 && validUtf8 r2)
      | _ => false
    else if b < 0xF0 then
      match r with
      | b1 :: b2 :: r2 => isUtf8Cont b1 && (isUtf8Cont b2 && validUtf8 r2)
      | _ => false
    else if b = 0xF0 then
      match r with
      | b1 :: b2 :: b3 :: r3 =>
          (0x90 ≤ b1 && b1 < 0xC0) &&
            (isUtf8Cont b2 && (isUtf8Cont b3 && validUtf8 r3))
      | _ => false
    else if b < 0xF4 then
      match r with
      | b1 :: b2 :: b3 :: r3 =>
          isUtf8Cont b1 && (isUtf8Cont b2 && (isUtf8Cont b3 && validUtf8 r3))
      | _ => false
    else if b = 0xF4 then
      match r with
      | b1 :: b2 :: b3 :: r3 =>
          (0x80 ≤ b1 && b1 < 0x90) &&
            (isUtf8Cont b2 && (isUtf8Cont b3 && validUtf8 r3))
      | _ => false
    else false

/-! ## Chunk reader (src/png.rs lines 187-233) -/

/-- Big-endian interpretation of a byte list, u32::from_be_bytes on 4 bytes. -/
def beU32 (l : List Nat) : Nat := l.foldl (fun a b => a * 256 + b) 0

/-- Translation of PNGFile::read_chunk. Each Rust read fills a buffer with
min(requested, available) bytes and the count is checked against the request,
so a short stream yields the EOF error. On a CRC mismatch over the raw tag
bytes concatenated with the payload the ParseError with message Invalid CRC
is returned; otherwise the chunk and the remaining stream are returned. -/
def read_chunk (s : List Nat) : Except PNGParseError (Chunk × List Nat) :=
  if s.length < 4 then .error .EOF else
  let chunk_st := s.take 4
  let s1 := s.drop 4
  let chunk_size_int := beU32 chunk_st
  if s1.length < 4 then .error .EOF else
  let chunk_type_buf := s1.take 4
  let s2 := s1.drop 4
  let chunk_type := if validUtf8 chunk_type_buf then chunk_type_buf else []
  if s2.length < chunk_size_int then .error .EOF else
  let chunk_data := s2.take chunk_size_int
  let s3 := s2.drop chunk_size_int
  if s3.length < 4 then .error .EOF else
  let chunk_crc_buf := s3.take 4
  let s4 := s3.drop 4
  let chunk_crc := beU32 chunk_crc_buf
  if crc (chunk_type_buf ++ chunk_data) ≠ chunk_crc then
    .error (.ParseError ("Invalid CRC"))
  else
    .ok ({ size := chunk_size_int, type_ := chunk_type,
           data := chunk_data, crc := chunk_crc }, s4)

/-! ## Container parser (src/png.rs lines 103-185) -/

/-- The four standard tags as byte lists: the String comparisons of the
parse loop compare UTF-8 bytes. -/
def tagIHDR : List Nat := [73, 72, 68, 82]

def tagIDAT : List Nat := [73, 68, 65, 84]

def tagPLTE : List Nat := [80, 76, 84, 69]

def tagIEND : List Nat := [73, 69, 78, 68]

/-- The 8-byte PNG signature checked by parse. -/
def png_signiture : List Nat := [137, 80, 78, 71, 13, 10, 26, 10]

/-- The IHDR branch of the parse loop: slice-or-default reads of the header
fields at fixed offsets (chunk.data.get with unwrap_or of zeros). -/
def setHeader (st : PNGFile) (d : List Nat) : PNGFile :=
  let width_buf := if 4 ≤ d.length then d.take 4 else [0, 0, 0, 0]
  let height_buf := if 8 ≤ d.length then (d.drop 4).take 4 else [0, 0, 0, 0]
  { st with
    width := beU32 width_buf,
    height := beU32 height_buf,
    bit_depth := d.getD 8 0,
    color_type := d.getD 9 0,
    compression_method := d.getD 10 0,
    filter_method := d.getD 11 0,
    interlace_method := d.getD 12 0 }

/-- The PLTE branch of the parse loop: for i in 0..data.len() the source
slices data[i..i+3] (a panic when i+3 exceeds the length, modelled as none)
and pushes one RGB entry per i. The first argument counts the remaining
iterations, the second is the current index i. -/
def plteGo (d : List Nat) : Nat → Nat → Option (List RGB)
  | _, 0 => some []
  | i, n + 1 =>
    if i + 3 ≤ d.length then
      match plteGo d (i + 1) n with
      | some rest => some ({ r := d.getD i 0, g := d.getD (i + 1) 0,
                             b := d.getD (i + 2) 0 } :: rest)
      | none => none
    else none

/-- All palette entries the PLTE loop pushes, or none when it panics. -/
def plteEntries (d : List Nat) : Option (List RGB) := plteGo d 0 d.length

/-- One iteration body of the while-let loop of parse, classifying a chunk
read at occurrence index i with accumulated compressed bytes dc. Returns the
updated state and buffer, or none when the Rust code panics (failed assert,
slice out of bounds, or unwrap on the decompressor). -/
def processChunk (inflate : List Nat → Option (List Nat)) (st : PNGFile)
    (i : Nat) (dc : List Nat) (c : Chunk) : Option (PNGFile × List Nat) :=
  if c.type_ = tagIHDR ∧ i = 0 then
    some (setHeader st c.data, dc)
  else if c.type_ = tagIDAT then
    let dc2 := dc ++ c.data
    if dc2.length > 0 then some (st, dc2) else none
  else if c.type_ = tagPLTE then
    match plteEntries c.data with
    | some es => some ({ st with pallette := st.pallette ++ es }, dc)
    | none => none
  else if c.type_ = tagIEND then
    if dc.length > 0 then
      match inflate dc with
      | some out =>
        if out.length > 0 then
          some ({ st with data := st.data ++ out }, dc)
        else none
      | none => none
    else none
  else
    some ({ st with chunks := st.chunks ++ [(i, c)] }, dc)

/-- Result of the chunk loop: the final state together with the final values
of the loop locals i and data_chunks, or a panic. -/
inductive LoopResult where
  | ok (st : PNGFile) (i : Nat) (dc : List Nat)
  | panic
deriving DecidableEq, Repr

/-- The while-let loop of parse, with a fuel argument bounding the number of
iterations. Every successful read_chunk consumes at least 12 bytes, so fuel
equal to the stream length always suffices; parseLoop_congr below shows the
result does not depend on the fuel once it is at least the stream length. -/
def parseLoop (inflate : List Nat → Option (List Nat)) :
    Nat → List Nat → PNGFile → Nat → List Nat → LoopResult
  | 0, _, st, i, dc => .ok st i dc
  | fuel + 1, s, st, i, dc =>
    match read_chunk s with
    | .error _ => .ok st i dc
    | .ok (c, s2) =>
      match processChunk inflate st i dc c with
      | none => .panic
      | some (st2, dc2) => parseLoop inflate fuel s2 st2 (i + 1) dc2

/-- The chunk loop run with sufficient fuel. -/
def runLoop (inflate : List Nat → Option (List Nat)) (s : List Nat)
    (st : PNGFile) (i : Nat) (dc : List Nat) : LoopResult :=
  parseLoop inflate s.length s st i dc

/-- Outcome of parse: the final PNGFile on Ok, the typed error on Err, or a
process abort for the panics inside the loop. -/
inductive ParseResult where
  | ok (st : PNGFile)
  | err (e : PNGParseError)
  | panic
deriving DecidableEq, Repr

/-- Tests whether a parse outcome is a typed error result. -/
def isErr : ParseResult → Bool
  | .err _ => true
  | _ => false

/-- Translation of PNGFile::parse. The 8-byte header buffer is prefilled with
zeros and filled with min(8, available) bytes; on signature mismatch the
ParseError is returned with no chunk read. Otherwise the chunk loop runs with
i starting at 0, an empty data_chunks buffer, and self.chunks reset; the
decompressor (flate2 ZlibDecoder, an external collaborator) is the inflate
parameter. -/
def parse (inflate : List Nat → Option (List Nat)) (self : PNGFile)
    (s : List Nat) : ParseResult :=
  let png_header := s.take 8 ++ List.replicate (8 - s.length) 0
  if png_header = png_signiture then
    match runLoop inflate (s.drop 8) { self with chunks := [] } 0 [] with
    | .ok st _ _ => .ok st
    | .panic => .panic
  else
    .err (.ParseError ("Invalid png file, wrong signiture."))

/-! ## Frame encoding used to state the claims -/

/-- Big-endian 4-byte encoding of a u32 value. -/
def be4 (n : Nat) : List Nat :=
  [n / 16777216 % 256, n / 65536 % 256, n / 256 % 256, n % 256]

/-- Serialization of one chunk: 4-byte big-endian length, 4-byte tag, the
payload, and the 4-byte big-endian CRC over tag and payload. -/
def frame (tag payload : List Nat) : List Nat :=
  be4 payload.length ++ tag ++ payload ++ be4 (crc (tag ++ payload))

/-- The chunk read_chunk returns for a well-formed frame. -/
def mkChunk (tag payload : List Nat) : Chunk :=
  { size := payload.length,
    type_ := if validUtf8 tag then tag else [],
    data := payload,
    crc := crc (tag ++ payload) }

/-- Serialization of a list of (tag, payload) chunks. -/
def frames (cs : List (List Nat × List Nat)) : List Nat :=
  (cs.map (fun c => frame c.1 c.2)).flatten

/-- Concatenation of the payloads of the IDAT chunks of a list, in order. -/
def idatBytes (cs : List (List Nat × List Nat)) : List Nat :=
  (cs.map (fun c => if c.1 = tagIDAT then c.2 else [])).flatten

/-! ## Basic lemmas -/

theorem beU32_be4 (n : Nat) (h : n < 2 ^ 32) : beU32 (be4 n) = n := by
  simp only [beU32, be4, List.foldl]
  omega

theorem crcFold_lt : ∀ (k c : Nat), c < 2 ^ 32 → crcFold k c < 2 ^ 32
  | 0, _, h => h
  | k + 1, c, h => by
    rw [crcFold]
    apply crcFold_lt k
    have hs : c >>> 1 < 2 ^ 32 := by
      rw [Nat.shiftRight_eq_div_pow]
      exact Nat.lt_of_le_of_lt (Nat.div_le_self c (2 ^ 1)) h
    split
    · exact Nat.xor_lt_two_pow (by norm_num) hs
    · exact hs

theorem update_crc_lt : ∀ (buf : List Nat) (c : Nat), c < 2 ^ 32 →
    update_crc c buf < 2 ^ 32
  | [], _, h => h
  | b :: buf, c, h => by
    have h1 : CRC_TABLE ((c ^^^ b) &&& 0xff) < 2 ^ 32 :=
      crcFold_lt 8 _ (Nat.lt_of_le_of_lt Nat.and_le_right (by norm_num))
    have h2 : c >>> 8 < 2 ^ 32 := by
      rw [Nat.shiftRight_eq_div_pow]
      exact Nat.lt_of_le_of_lt (Nat.div_le_self c (2 ^ 8)) h
    have : update_crc c (b :: buf)
        = update_crc (CRC_TABLE ((c ^^^ b) &&& 0xff) ^^^ (c >>> 8)) buf := rfl
    rw [this]
    exact update_crc_lt buf _ (Nat.xor_lt_two_pow h1 h2)

theorem crc_lt (buf : List Nat) : crc buf < 2 ^ 32 := by
  rw [crc]
  exact Nat.xor_lt_two_pow (update_crc_lt buf _ (by norm_num)) (by norm_num)

theorem length_be4 (n : Nat) : (be4 n).length = 4 := rfl

theorem read_chunk_frame (tag payload rest : List Nat)
    (htag : tag.length = 4) (hlen : payload.length < 2 ^ 32) :
    read_chunk (frame tag payload ++ rest) = .ok (mkChunk tag payload, rest) := by
  have hC : crc (tag ++ payload) < 2 ^ 32 := crc_lt (tag ++ payload)
  have e1 : frame tag payload ++ rest
      = be4 payload.length ++
          (tag ++ (payload ++ (be4 (crc (tag ++ payload)) ++ rest))) := by
    simp [frame]
  rw [e1]
  simp only [read_chunk]
  rw [List.take_left' (length_be4 _), List.drop_left' (length_be4 _)]
  rw [beU32_be4 _ hlen]
  rw [List.take_left' htag, List.drop_left' htag]
  rw [List.take_left, List.drop_left]
  rw [List.take_left' (length_be4 _), List.drop_left' (length_be4 _)]
  rw [beU32_be4 _ hC]
  have c1 : ¬(be4 payload.length ++
      (tag ++ (payload ++ (be4 (crc (tag ++ payload)) ++ rest)))).length < 4 := by
    simp [List.length_append, length_be4]
  have c2 : ¬(tag ++ (payload ++ (be4 (crc (tag ++ payload)) ++ rest))).length < 4 := by
    simp [List.length_append, htag]
  have c3 : ¬(payload ++ (be4 (crc (tag ++ payload)) ++ rest)).length < payload.length := by
    simp [List.length_append]
  have c4 : ¬(be4 (crc (tag ++ payload)) ++ rest).length < 4 := by
    simp [List.length_append, length_be4]
  rw [if_neg c1, if_neg c2, if_neg c3, if_neg c4]
  rw [if_neg (by simp)]
  rfl

theorem read_chunk_ok_length {s : List Nat} {c : Chunk} {s2 : List Nat}
    (h : read_chunk s = .ok (c, s2)) : s2.length < s.length := by
  simp only [read_chunk] at h
  split_ifs at h with h1 h2 h3 h4 h5 h6
  all_goals
    simp only [Except.ok.injEq, Prod.mk.injEq] at h
    obtain ⟨-, h7⟩ := h
    subst h7
    simp only [List.length_drop] at *
    omega

theorem parseLoop_congr (inflate : List Nat → Option (List Nat)) :
    ∀ (n m : Nat) (s : List Nat) (st : PNGFile) (i : Nat) (dc : List Nat),
      s.length ≤ n → s.length ≤ m →
      parseLoop inflate n s st i dc = parseLoop inflate m s st i dc := by
  intro n
  induction n with
  | zero =>
    intro m s st i dc hn _
    have hs : s = [] := List.eq_nil_of_length_eq_zero (Nat.le_zero.mp hn)
    subst hs
    cases m with
    | zero => rfl
    | succ m => rfl
  | succ n ih =>
    intro m s st i dc hn hm
    cases m with
    | zero =>
      have hs : s = [] := List.eq_nil_of_length_eq_zero (Nat.le_zero.mp hm)
      subst hs
      rfl
    | succ m =>
      cases hrc : read_chunk s with
      | error e => simp only [parseLoop, hrc]
      | ok p =>
        obtain ⟨c, s2⟩ := p
        simp only [parseLoop, hrc]
        cases hpc : processChunk inflate st i dc c with
        | none => simp only [hpc]
        | some q =>
          obtain ⟨st2, dc2⟩ := q
          simp only [hpc]
          have hlt := read_chunk_ok_length hrc
          exact ih m s2 st2 (i + 1) dc2 (by omega) (by omega)

theorem runLoop_error {s : List Nat} {e : PNGParseError}
    (h : read_chunk s = .error e) (inflate : List Nat → Option (List Nat))
    (st : PNGFile) (i : Nat) (dc : List Nat) :
    runLoop inflate s st i dc = .ok st i dc := by
  rw [runLoop]
  cases hl : s.length with
  | zero => rfl
  | succ k => simp only [parseLoop, h]

theorem runLoop_step {s : List Nat} {c : Chunk} {s2 : List Nat}
    (h : read_chunk s = .ok (c, s2)) (inflate : List Nat → Option (List Nat))
    (st : PNGFile) (i : Nat) (dc : List Nat) :
    runLoop inflate s st i dc
      = match processChunk inflate st i dc c with
        | none => .panic
        | some (st2, dc2) => runLoop inflate s2 st2 (i + 1) dc2 := by
  have hlt := read_chunk_ok_length h
  rw [runLoop]
  have h1 : s.length = (s.length - 1) + 1 := by omega
  rw [h1]
  simp only [parseLoop, h]
  cases hpc : processChunk inflate st i dc c with
  | none => simp only [hpc]
  | some q =>
    obtain ⟨st2, dc2⟩ := q
    simp only [hpc]
    rw [runLoop]
    exact parseLoop_congr inflate _ _ s2 st2 (i + 1) dc2 (by omega) (Nat.le_refl _)

theorem runLoop_frame (tag payload rest : List Nat) (htag : tag.length = 4)
    (hlen : payload.length < 2 ^ 32) (inflate : List Nat → Option (List Nat))
    (st : PNGFile) (i : Nat) (dc : List Nat) :
    runLoop inflate (frame tag payload ++ rest) st i dc
      = match processChunk inflate st i dc (mkChunk tag payload) with
        | none => .panic
        | some (st2, dc2) => runLoop inflate rest st2 (i + 1) dc2 :=
  runLoop_step (read_chunk_frame tag payload rest htag hlen) inflate st i dc

/-! ## Equality of the source CRC with the reference CRC -/

theorem refStep_eq (c : Nat) :
    refStep c = (if c &&& 1 ≠ 0 then 0xedb88320 ^^^ (c >>> 1) else c >>> 1) := by
  have h1 : c &&& 1 = c % 2 := Nat.and_one_is_mod c
  have h2 : c >>> 1 = c / 2 := by
    rw [Nat.shiftRight_eq_div_pow]
  rw [refStep, h1, h2]
  by_cases hc : c % 2 = 1
  · rw [if_pos hc, if_pos (by omega)]
    exact Nat.xor_comm _ _
  · rw [if_neg hc, if_neg (by omega)]

theorem refIter_eq : ∀ (k c : Nat), refIter k c = crcFold k c
  | 0, _ => rfl
  | k + 1, c => by
    rw [refIter, crcFold, ← refStep_eq]
    exact refIter_eq k _

theorem refTable_lookup : ∀ m, m < 256 → refTable.getD m 0 = CRC_TABLE m := by
  have base : ∀ m, m < 256 → refTable.getD m 0 = refIter 8 m := by
    intro m hm
    rw [refTable, List.getD_eq_getElem?_getD, List.getElem?_map,
      List.getElem?_range hm]
    rfl
  intro m hm
  rw [base m hm, refIter_eq]
  rfl

theorem update_crc_eq_ref : ∀ (buf : List Nat) (c : Nat),
    update_crc c buf
      = buf.foldl (fun acc b => refTable.getD ((acc ^^^ b) &&& 0xff) 0 ^^^ acc / 256) c
  | [], _ => rfl
  | b :: buf, c => by
    have hm : (c ^^^ b) &&& 0xff < 256 :=
      Nat.lt_of_le_of_lt Nat.and_le_right (by norm_num)
    have h8 : c >>> 8 = c / 256 := by
      rw [Nat.shiftRight_eq_div_pow]
    have lhs : update_crc c (b :: buf)
        = update_crc (CRC_TABLE ((c ^^^ b) &&& 0xff) ^^^ (c >>> 8)) buf := rfl
    have rhs : (b :: buf).foldl
          (fun acc x => refTable.getD ((acc ^^^ x) &&& 0xff) 0 ^^^ acc / 256) c
        = buf.foldl (fun acc x => refTable.getD ((acc ^^^ x) &&& 0xff) 0 ^^^ acc / 256)
            (refTable.getD ((c ^^^ b) &&& 0xff) 0 ^^^ c / 256) := rfl
    rw [lhs, rhs, refTable_lookup _ hm, h8]
    exact update_crc_eq_ref buf _

/-! ## Branch behaviour of processChunk -/

theorem mkChunk_type_ne (t p x : List Nat) (hx : x ≠ []) (ht : t ≠ x) :
    (mkChunk t p).type_ ≠ x := by
  rw [mkChunk]
  dsimp only
  split
  · exact ht
  · exact fun h => hx h.symm

theorem mkChunk_type_imp (t p x : List Nat) (hx : x ≠ [])
    (h : (mkChunk t p).type_ = x) : t = x := by
  rw [mkChunk] at h
  dsimp only at h
  split at h
  · exact h
  · exact absurd h.symm hx

theorem mkChunk_tag_type (t d : List Nat) (h : validUtf8 t = true) :
    (mkChunk t d).type_ = t := by
  rw [mkChunk]
  dsimp only
  rw [if_pos h]

theorem processChunk_IHDR0 (inflate : List Nat → Option (List Nat))
    (st : PNGFile) (dc d : List Nat) :
    processChunk inflate st 0 dc (mkChunk tagIHDR d) = some (setHeader st d, dc) := by
  have ht : (mkChunk tagIHDR d).type_ = tagIHDR := mkChunk_tag_type _ _ (by decide)
  have hd : (mkChunk tagIHDR d).data = d := rfl
  rw [processChunk, ht, hd, if_pos ⟨rfl, rfl⟩]

theorem processChunk_IHDR_late (inflate : List Nat → Option (List Nat))
    (st : PNGFile) (i : Nat) (dc d : List Nat) (hi : i ≠ 0) :
    processChunk inflate st i dc (mkChunk tagIHDR d)
      = some ({ st with chunks := st.chunks ++ [(i, mkChunk tagIHDR d)] }, dc) := by
  have ht : (mkChunk tagIHDR d).type_ = tagIHDR := mkChunk_tag_type _ _ (by decide)
  rw [processChunk, ht, if_neg (fun hp => hi hp.2), if_neg (by decide),
    if_neg (by decide), if_neg (by decide)]

theorem processChunk_IDAT (inflate : List Nat → Option (List Nat))
    (st : PNGFile) (i : Nat) (dc d : List Nat) (hne : dc ++ d ≠ []) :
    processChunk inflate st i dc (mkChunk tagIDAT d) = some (st, dc ++ d) := by
  have ht : (mkChunk tagIDAT d).type_ = tagIDAT := mkChunk_tag_type _ _ (by decide)
  have hd : (mkChunk tagIDAT d).data = d := rfl
  rw [processChunk, ht, hd, if_neg (fun hp => by exact absurd hp.1 (by decide)),
    if_pos rfl]
  dsimp only
  rw [if_pos (List.length_pos.mpr hne)]

theorem processChunk_IEND (inflate : List Nat → Option (List Nat))
    (st : PNGFile) (i : Nat) (dc d : List Nat) :
    processChunk inflate st i dc (mkChunk tagIEND d)
      = if dc.length > 0 then
          match inflate dc with
          | some out =>
            if out.length > 0 then some ({ st with data := st.data ++ out }, dc)
            else none
          | none => none
        else none := by
  have ht : (mkChunk tagIEND d).type_ = tagIEND := mkChunk_tag_type _ _ (by decide)
  rw [processChunk, ht, if_neg (fun hp => by exact absurd hp.1 (by decide)),
    if_neg (by decide), if_neg (by decide), if_pos rfl]

theorem processChunk_other (inflate : List Nat → Option (List Nat))
    (st : PNGFile) (i : Nat) (dc : List Nat) (c : Chunk)
    (h1 : ¬(c.type_ = tagIHDR ∧ i = 0)) (h2 : c.type_ ≠ tagIDAT)
    (h3 : c.type_ ≠ tagPLTE) (h4 : c.type_ ≠ tagIEND) :
    processChunk inflate st i dc c
      = some ({ st with chunks := st.chunks ++ [(i, c)] }, dc) := by
  rw [processChunk, if_neg h1, if_neg h2, if_neg h3, if_neg h4]

theorem processChunk_nonIDAT_some (inflate : List Nat → Option (List Nat))
    (st : PNGFile) (i : Nat) (dc : List Nat) (c : Chunk)
    (h2 : c.type_ ≠ tagIDAT) (h4 : c.type_ ≠ tagIEND)
    (h3 : c.type_ = tagPLTE → c.data = []) :
    ∃ st2, processChunk inflate st i dc c = some (st2, dc) := by
  by_cases hA : c.type_ = tagIHDR ∧ i = 0
  · exact ⟨setHeader st c.data, by rw [processChunk, if_pos hA]⟩
  by_cases hP : c.type_ = tagPLTE
  · refine ⟨{ st with pallette := st.pallette ++ [] }, ?_⟩
    rw [processChunk, if_neg hA, if_neg h2, if_pos hP]
    have hd : c.data = [] := h3 hP
    rw [hd]
    rfl
  · exact ⟨{ st with chunks := st.chunks ++ [(i, c)] },
      processChunk_other inflate st i dc c hA h2 hP h4⟩

/-! ## Header stability after the first chunk -/

/-- The seven header fields of a state, bundled for stability statements. -/
def headerOf (st : PNGFile) : Nat × Nat × Nat × Nat × Nat × Nat × Nat :=
  (st.width, st.height, st.bit_depth, st.color_type, st.compression_method,
   st.filter_method, st.interlace_method)

theorem processChunk_headerOf {inflate : List Nat → Option (List Nat)}
    {st : PNGFile} {i : Nat} {dc : List Nat} {c : Chunk} {st2 : PNGFile}
    {dc2 : List Nat} (hi : i ≠ 0)
    (h : processChunk inflate st i dc c = some (st2, dc2)) :
    headerOf st2 = headerOf st := by
  have hA : ¬(c.type_ = tagIHDR ∧ i = 0) := fun hp => hi hp.2
  simp only [processChunk, if_neg hA] at h
  repeat' split at h
  all_goals try exact Option.noConfusion h
  all_goals
    injection h with h9
    injection h9 with e1 e2
    subst e1
    rfl

theorem parseLoop_headerOf (inflate : List Nat → Option (List Nat)) :
    ∀ (fuel : Nat) (s : List Nat) (st : PNGFile) (i : Nat) (dc : List Nat)
      (st2 : PNGFile) (i2 : Nat) (dc2 : List Nat), 1 ≤ i →
      parseLoop inflate fuel s st i dc = .ok st2 i2 dc2 →
      headerOf st2 = headerOf st := by
  intro fuel
  induction fuel with
  | zero =>
    intro s st i dc st2 i2 dc2 _ h
    injection h with e1 e2 e3
    subst e1
    rfl
  | succ n ih =>
    intro s st i dc st2 i2 dc2 hi h
    cases hrc : read_chunk s with
    | error e =>
      simp only [parseLoop, hrc] at h
      injection h with e1 e2 e3
      subst e1
      rfl
    | ok p =>
      obtain ⟨c, s2⟩ := p
      simp only [parseLoop, hrc] at h
      cases hpc : processChunk inflate st i dc c with
      | none =>
        simp only [hpc] at h
        exact LoopResult.noConfusion h
      | some q =>
        obtain ⟨st3, dc3⟩ := q
        simp only [hpc] at h
        have h1 := ih s2 st3 (i + 1) dc3 st2 i2 dc2 (by omega) h
        have h2 := processChunk_headerOf (by omega) hpc
        rw [h1, h2]

/-! ## Folding the loop body over a list of framed chunks -/

/-- The effect of the parse loop body on a list of (tag, payload) chunks:
the final state, occurrence index and compressed buffer, or none when a
panic occurs. -/
def applyChunks (inflate : List Nat → Option (List Nat)) :
    List (List Nat × List Nat) → PNGFile → Nat → List Nat →
      Option (PNGFile × Nat × List Nat)
  | [], st, i, dc => some (st, i, dc)
  | c :: cs, st, i, dc =>
    match processChunk inflate st i dc (mkChunk c.1 c.2) with
    | none => none
    | some (st2, dc2) => applyChunks inflate cs st2 (i + 1) dc2

/-- The state after processing a list of chunks, with the start state as the
(unreached, see applyChunks_spec) default on panic. -/
def stateAfter (inflate : List Nat → Option (List Nat))
    (cs : List (List Nat × List Nat)) (st : PNGFile) (i : Nat)
    (dc : List Nat) : PNGFile :=
  match applyChunks inflate cs st i dc with
  | some (st2, _, _) => st2
  | none => st

theorem runLoop_frames_decomp (inflate : List Nat → Option (List Nat)) :
    ∀ (cs : List (List Nat × List Nat)) (rest : List Nat) (st : PNGFile)
      (i : Nat) (dc : List Nat),
      (∀ c ∈ cs, c.1.length = 4 ∧ c.2.length < 2 ^ 32) →
      runLoop inflate (frames cs ++ rest) st i dc
        = match applyChunks inflate cs st i dc with
          | none => .panic
          | some (st2, i2, dc2) => runLoop inflate rest st2 i2 dc2 := by
  intro cs
  induction cs with
  | nil =>
    intro rest st i dc _
    simp only [frames, List.map_nil, List.flatten_nil, List.nil_append,
      applyChunks]
  | cons c cs ih =>
    intro rest st i dc h
    have hc := h c (List.mem_cons_self c cs)
    have e : frames (c :: cs) ++ rest = frame c.1 c.2 ++ (frames cs ++ rest) := by
      simp [frames]
    rw [e, runLoop_frame c.1 c.2 _ hc.1 hc.2 inflate st i dc]
    cases hpc : processChunk inflate st i dc (mkChunk c.1 c.2) with
    | none => simp only [applyChunks, hpc]
    | some q =>
      obtain ⟨st2, dc2⟩ := q
      simp only [applyChunks, hpc]
      exact ih rest st2 (i + 1) dc2 (fun x hx => h x (List.mem_cons_of_mem c hx))

theorem idatBytes_cons_idat (p : List Nat) (cs : List (List Nat × List Nat)) :
    idatBytes ((tagIDAT, p) :: cs) = p ++ idatBytes cs := by
  simp [idatBytes]

theorem idatBytes_cons_other (t p : List Nat) (cs : List (List Nat × List Nat))
    (h : t ≠ tagIDAT) : idatBytes ((t, p) :: cs) = idatBytes cs := by
  simp [idatBytes, h]

theorem applyChunks_spec (inflate : List Nat → Option (List Nat)) :
    ∀ (cs : List (List Nat × List Nat)) (st : PNGFile) (i : Nat) (dc : List Nat),
      (∀ c ∈ cs, c.1 ≠ tagIEND ∧ (c.1 = tagPLTE → c.2 = [])) →
      (dc = [] → ∀ c, cs.find? (fun x => x.1 == tagIDAT) = some c → c.2 ≠ []) →
      applyChunks inflate cs st i dc
        = some (stateAfter inflate cs st i dc, i + cs.length, dc ++ idatBytes cs) := by
  intro cs
  induction cs with
  | nil =>
    intro st i dc _ _
    simp [applyChunks, stateAfter, idatBytes]
  | cons c cs ih =>
    obtain ⟨t, p⟩ := c
    intro st i dc h hsafe
    have hc := h (t, p) (List.mem_cons_self (t, p) cs)
    have htail : ∀ x ∈ cs, x.1 ≠ tagIEND ∧ (x.1 = tagPLTE → x.2 = []) :=
      fun x hx => h x (List.mem_cons_of_mem (t, p) hx)
    by_cases hidat : t = tagIDAT
    · subst hidat
      have hne : dc ++ p ≠ [] := by
        intro hemp
        obtain ⟨hdc, hp⟩ := List.append_eq_nil.mp hemp
        have hfind : ((tagIDAT, p) :: cs).find? (fun x => x.1 == tagIDAT)
            = some (tagIDAT, p) := List.find?_cons_of_pos cs (by simp)
        exact hsafe hdc (tagIDAT, p) hfind hp
      have hpc := processChunk_IDAT inflate st i dc p hne
      have hsafe2 : dc ++ p = [] →
          ∀ c, cs.find? (fun x => x.1 == tagIDAT) = some c → c.2 ≠ [] :=
        fun hemp => absurd hemp hne
      have hrec := ih st (i + 1) (dc ++ p) htail hsafe2
      have hlhs : applyChunks inflate ((tagIDAT, p) :: cs) st i dc
          = applyChunks inflate cs st (i + 1) (dc ++ p) := by
        simp only [applyChunks, hpc]
      have hstate : stateAfter inflate ((tagIDAT, p) :: cs) st i dc
          = stateAfter inflate cs st (i + 1) (dc ++ p) := by
        rw [stateAfter, stateAfter, hlhs, hrec]
      have harith : i + (cs.length + 1) = i + 1 + cs.length := by omega
      rw [hlhs, hrec, hstate, idatBytes_cons_idat, List.length_cons, harith,
        ← List.append_assoc]
    · have ht1 : (mkChunk t p).type_ ≠ tagIDAT :=
        mkChunk_type_ne t p tagIDAT (by decide) hidat
      have ht2 : (mkChunk t p).type_ ≠ tagIEND :=
        mkChunk_type_ne t p tagIEND (by decide) hc.1
      have ht3 : (mkChunk t p).type_ = tagPLTE → (mkChunk t p).data = [] := by
        intro hx
        exact hc.2 (mkChunk_type_imp t p tagPLTE (by decide) hx)
      obtain ⟨st2, hpc⟩ :=
        processChunk_nonIDAT_some inflate st i dc (mkChunk t p) ht1 ht2 ht3
      have hsafe2 : dc = [] →
          ∀ c, cs.find? (fun x => x.1 == tagIDAT) = some c → c.2 ≠ [] := by
        intro hdc c hfind
        have hfind2 : ((t, p) :: cs).find? (fun x => x.1 == tagIDAT) = some c := by
          rw [List.find?_cons_of_neg cs (by simp [hidat])]
          exact hfind
        exact hsafe hdc c hfind2
      have hrec := ih st2 (i + 1) dc htail hsafe2
      have hlhs : applyChunks inflate ((t, p) :: cs) st i dc
          = applyChunks inflate cs st2 (i + 1) dc := by
        simp only [applyChunks, hpc]
      have hstate : stateAfter inflate ((t, p) :: cs) st i dc
          = stateAfter inflate cs st2 (i + 1) dc := by
        rw [stateAfter, stateAfter, hlhs, hrec]
      have harith : i + (cs.length + 1) = i + 1 + cs.length := by omega
      rw [hlhs, hrec, hstate, idatBytes_cons_other t p cs hidat,
        List.length_cons, harith]

/-! ## Parse entry behaviour -/

theorem parse_signature_ok (inflate : List Nat → Option (List Nat))
    (self : PNGFile) (rest : List Nat) :
    parse inflate self (png_signiture ++ rest)
      = match runLoop inflate rest { self with chunks := [] } 0 [] with
        | .ok st _ _ => .ok st
        | .panic => .panic := by
  rw [parse]
  have h2 : (png_signiture ++ rest).take 8 = png_signiture := List.take_left' rfl
  have h3 : 8 - (png_signiture ++ rest).length = 0 := by
    simp [png_signiture]
  have h4 : (png_signiture ++ rest).drop 8 = rest := List.drop_left' rfl
  rw [h2, h3, List.replicate_zero, List.append_nil, if_pos rfl, h4]

/-! ## Claim theorems -/

/-- C1 (amended): for every serialized chunk frame with a 4-byte tag that is
valid UTF-8, a payload of bytes, and a CRC computed over tag and payload,
read_chunk succeeds and returns the chunk with identical size, tag, and
payload, with the stored crc field equal to the CRC over the returned tag
concatenated with the returned payload. (For tags that are not valid UTF-8,
the returned type tag is empty rather than identical; see the
counterexample.) -/
theorem C1_read_chunk_roundtrip (tag payload rest : List Nat)
    (htag : tag.length = 4) (hutf : validUtf8 tag = true)
    (hbytes : ∀ b ∈ payload, b < 256) (hlen : payload.length < 2 ^ 32) :
    read_chunk (frame tag payload ++ rest)
      = .ok ({ size := payload.length, type_ := tag, data := payload,
               crc := crc (tag ++ payload) }, rest) := by
  rw [read_chunk_frame tag payload rest htag hlen]
  simp [mkChunk, hutf]

/-- Witness for C1: a concrete IDAT frame with payload [1, 2, 3]. -/
theorem C1_read_chunk_roundtrip_witness :
    ([73, 68, 65, 84] : List Nat).length = 4
      ∧ validUtf8 [73, 68, 65, 84] = true
      ∧ (∀ b ∈ ([1, 2, 3] : List Nat), b < 256)
      ∧ ([1, 2, 3] : List Nat).length < 2 ^ 32
      ∧ read_chunk (frame [73, 68, 65, 84] [1, 2, 3] ++ [])
          = .ok ({ size := 3, type_ := [73, 68, 65, 84], data := [1, 2, 3],
                   crc := crc ([73, 68, 65, 84] ++ [1, 2, 3]) }, []) :=
  ⟨rfl, by decide, by decide, by decide,
    C1_read_chunk_roundtrip [73, 68, 65, 84] [1, 2, 3] [] rfl (by decide)
      (by decide) (by decide)⟩

/-- Counterexample for C1 as stated: a frame whose 4 tag bytes
[255, 255, 255, 255] are not valid UTF-8, with a correct CRC. read_chunk
succeeds but returns the empty type tag instead of the serialized one, and
re-running the CRC over the returned tag and payload does not reproduce the
stored crc field. -/
theorem C1_invalid_tag_counterexample :
    read_chunk (frame [255, 255, 255, 255] [])
        = .ok ({ size := 0, type_ := [], data := [],
                 crc := crc [255, 255, 255, 255] }, [])
      ∧ ([] : List Nat) ≠ [255, 255, 255, 255]
      ∧ crc ([] ++ ([] : List Nat)) ≠ crc [255, 255, 255, 255] :=
  ⟨rfl, by decide, by decide⟩

/-- C2: the crc function is the reference PNG/zlib CRC-32: it equals, on
every buffer, the specification-side crcReference built from a 256-entry
table derived from polynomial 0xEDB88320 by 8 bit-reversed reduction steps
per slot, seeded with 0xFFFFFFFF and finally complemented; the empty buffer
gives 0 and the ASCII bytes of 123456789 give 0xCBF43926. -/
theorem C2_crc_is_reference :
    (∀ buf : List Nat, crc buf = crcReference buf)
      ∧ crc [] = 0
      ∧ crc [49, 50, 51, 52, 53, 54, 55, 56, 57] = 0xCBF43926 := by
  refine ⟨fun buf => ?_, by decide, by decide⟩
  rw [crc, crcReference, update_crc_eq_ref]

/-- C3: a stream whose first 8 bytes differ from the PNG signature is
rejected by parse with the signature ParseError; the result carries no
state, so no chunk, header field, palette entry or compressed byte is
produced. -/
theorem C3_signature_mismatch (inflate : List Nat → Option (List Nat))
    (self : PNGFile) (s : List Nat) (h : s.take 8 ≠ png_signiture) :
    parse inflate self s
      = .err (.ParseError ("Invalid png file, wrong signiture.")) := by
  rw [parse, if_neg ?hne]
  case hne =>
    intro heq
    by_cases hl : 8 ≤ s.length
    · rw [Nat.sub_eq_zero_of_le hl, List.replicate_zero, List.append_nil] at heq
      exact h heq
    · have hlt : s.length < 8 := by omega
      have hts : (s.take 8).length = s.length := by
        rw [List.length_take]
        omega
      have h7 : (s.take 8 ++ List.replicate (8 - s.length) 0)[7]? = some 0 := by
        rw [List.getElem?_append_right (by rw [hts]; omega),
          List.getElem?_replicate, if_pos (by rw [hts]; omega)]
      rw [heq] at h7
      exact absurd h7 (by decide)

/-- Witness for C3: the empty stream. -/
theorem C3_signature_mismatch_witness :
    (([] : List Nat).take 8 ≠ png_signiture)
      ∧ parse (fun _ => none) pngFileDefault []
          = .err (.ParseError ("Invalid png file, wrong signiture.")) :=
  ⟨by decide, C3_signature_mismatch (fun _ => none) pngFileDefault [] (by decide)⟩

/-- C4 (amended): for a stream of framed chunks followed by an IEND frame,
where no chunk is an IEND, every PLTE chunk has an empty payload (a nonempty
one panics, see C5), and the first IDAT chunk, if any, has a nonempty payload
(an empty one fails the assert in the IDAT branch, see the counterexample),
the compressed buffer accumulated by the loop and handed to the inflate
adapter at the IEND chunk is exactly idatBytes cs, the concatenation of all
IDAT payloads in arrival order, regardless of how many IDAT chunks there are
or which other chunks appear between them. -/
theorem C4_idat_concatenation (inflate : List Nat → Option (List Nat))
    (cs : List (List Nat × List Nat)) (rest : List Nat) (st : PNGFile) (i : Nat)
    (h1 : ∀ c ∈ cs, c.1.length = 4 ∧ c.2.length < 2 ^ 32)
    (h2 : ∀ c ∈ cs, c.1 ≠ tagIEND ∧ (c.1 = tagPLTE → c.2 = []))
    (h3 : Option.all (fun c => !c.2.isEmpty)
        (cs.find? (fun x => x.1 == tagIDAT)) = true) :
    runLoop inflate (frames cs ++ (frame tagIEND [] ++ rest)) st i []
      = if (idatBytes cs).length > 0 then
          match inflate (idatBytes cs) with
          | some out =>
            if out.length > 0 then
              runLoop inflate rest
                { stateAfter inflate cs st i [] with
                  data := (stateAfter inflate cs st i []).data ++ out }
                (i + cs.length + 1) (idatBytes cs)
            else .panic
          | none => .panic
        else .panic := by
  have hsafe : ([] : List Nat) = [] →
      ∀ c, cs.find? (fun x => x.1 == tagIDAT) = some c → c.2 ≠ [] := by
    intro _ c hfind
    rw [hfind] at h3
    simp only [Option.all, Bool.not_eq_eq_eq_not, Bool.not_true] at h3
    intro hc2
    rw [hc2] at h3
    exact absurd h3 (by decide)
  rw [runLoop_frames_decomp inflate cs (frame tagIEND [] ++ rest) st i [] h1]
  rw [applyChunks_spec inflate cs st i [] h2 hsafe]
  have step : (match some (stateAfter inflate cs st i [], i + cs.length,
        ([] : List Nat) ++ idatBytes cs) with
      | none => LoopResult.panic
      | some (st2, i2, dc2) =>
          runLoop inflate (frame tagIEND [] ++ rest) st2 i2 dc2)
      = runLoop inflate (frame tagIEND [] ++ rest) (stateAfter inflate cs st i [])
          (i + cs.length) (idatBytes cs) := by
    rw [List.nil_append]
  rw [step]
  rw [runLoop_frame tagIEND [] rest rfl (by decide),
    processChunk_IEND inflate (stateAfter inflate cs st i []) (i + cs.length)
      (idatBytes cs) []]
  by_cases hd : (idatBytes cs).length > 0
  · rw [if_pos hd, if_pos hd]
    cases hinf : inflate (idatBytes cs) with
    | none => rfl
    | some out =>
      dsimp only
      by_cases ho : out.length > 0
      · rw [if_pos ho, if_pos ho]
      · rw [if_neg ho, if_neg ho]
  · rw [if_neg hd, if_neg hd]

/-- Witness for C4: two IDAT chunks with payloads [1, 2] and [3] and an
IHDR chunk between them, with an adapter that accepts the buffer. -/
theorem C4_idat_concatenation_witness :
    (∀ c ∈ ([(tagIDAT, [1, 2]), (tagIHDR, [0]), (tagIDAT, [3])]
        : List (List Nat × List Nat)), c.1.length = 4 ∧ c.2.length < 2 ^ 32)
      ∧ (∀ c ∈ ([(tagIDAT, [1, 2]), (tagIHDR, [0]), (tagIDAT, [3])]
          : List (List Nat × List Nat)),
          c.1 ≠ tagIEND ∧ (c.1 = tagPLTE → c.2 = []))
      ∧ Option.all (fun c => !c.2.isEmpty)
          (([(tagIDAT, [1, 2]), (tagIHDR, [0]), (tagIDAT, [3])]
            : List (List Nat × List Nat)).find? (fun x => x.1 == tagIDAT)) = true
      ∧ runLoop (fun b => some (0 :: b))
          (frames [(tagIDAT, [1, 2]), (tagIHDR, [0]), (tagIDAT, [3])]
            ++ (frame tagIEND [] ++ [])) pngFileDefault 0 []
        = if (idatBytes [(tagIDAT, [1, 2]), (tagIHDR, [0]), (tagIDAT, [3])]).length
              > 0 then
            match (fun b => some (0 :: b))
                (idatBytes [(tagIDAT, [1, 2]), (tagIHDR, [0]), (tagIDAT, [3])]) with
            | some out =>
              if out.length > 0 then
                runLoop (fun b => some (0 :: b)) []
                  { stateAfter (fun b => some (0 :: b))
                      [(tagIDAT, [1, 2]), (tagIHDR, [0]), (tagIDAT, [3])]
                      pngFileDefault 0 [] with
                    data := (stateAfter (fun b => some (0 :: b))
                        [(tagIDAT, [1, 2]), (tagIHDR, [0]), (tagIDAT, [3])]
                        pngFileDefault 0 []).data ++ out }
                  (0 + 3 + 1)
                  (idatBytes [(tagIDAT, [1, 2]), (tagIHDR, [0]), (tagIDAT, [3])])
              else .panic
            | none => .panic
          else .panic :=
  ⟨by decide, by decide, by decide,
    C4_idat_concatenation (fun b => some (0 :: b))
      [(tagIDAT, [1, 2]), (tagIHDR, [0]), (tagIDAT, [3])] [] pngFileDefault 0
      (by decide) (by decide) (by decide)⟩

/-- Counterexample for C4 as stated: a parsed stream whose first IDAT chunk
has an empty payload panics on the assert in the IDAT branch before any
buffer is handed to the adapter at IEND, so the hand-off the claim describes
never happens even though a later IDAT carries payload [5]. -/
theorem C4_empty_first_idat_counterexample :
    parse (fun b => some (0 :: b)) pngFileDefault
        (png_signiture ++ (frame tagIDAT [] ++ (frame tagIDAT [5]
          ++ frame tagIEND []))) = .panic := by
  rfl

/-- C5: the PLTE branch of parse runs index i over every payload position
and slices payload[i..i+3], which exceeds the 3-byte bound already at i = 1;
on the multiple-of-3 payload [1, 2, 3] the palette loop panics (plteEntries
is none) and parse aborts instead of appending one PaletteEntry. -/
theorem C5_plte_panics :
    plteEntries [1, 2, 3] = none
      ∧ parse (fun _ => none) pngFileDefault
          (png_signiture ++ frame tagPLTE [1, 2, 3]) = .panic :=
  ⟨rfl, by rfl⟩

/-- C6 (amended): when an IEND chunk is reached with an empty accumulated
IDAT buffer, the loop panics on the assert in the IEND branch; no typed
error is returned (PNGParseError has no EmptyImageData variant). -/
theorem C6_iend_empty_data_panics (inflate : List Nat → Option (List Nat))
    (st : PNGFile) (i : Nat) (p rest : List Nat) (hp : p.length < 2 ^ 32) :
    runLoop inflate (frame tagIEND p ++ rest) st i [] = .panic := by
  rw [runLoop_frame tagIEND p rest rfl hp, processChunk_IEND]
  rfl

/-- Witness for C6: an IEND frame with empty payload at the start of the
loop. -/
theorem C6_iend_empty_data_panics_witness :
    (([] : List Nat).length < 2 ^ 32)
      ∧ runLoop (fun _ => some [1]) (frame tagIEND [] ++ []) pngFileDefault 0 []
          = .panic :=
  ⟨by decide, C6_iend_empty_data_panics (fun _ => some [1]) pngFileDefault 0 [] []
    (by decide)⟩

/-- Counterexample for C6 as stated: a valid signature followed by a lone
IEND chunk makes parse abort with a panic, not return a typed
EmptyImageData error (no such variant exists in PNGParseError). -/
theorem C6_no_typed_error_counterexample :
    parse (fun _ => some [1]) pngFileDefault (png_signiture ++ frame tagIEND [])
        = .panic
      ∧ isErr (parse (fun _ => some [1]) pngFileDefault
          (png_signiture ++ frame tagIEND [])) = false :=
  ⟨by rfl, by rfl⟩

/-- C7: a chunk frame whose transmitted 4-byte CRC differs from the CRC-32
over tag and payload makes read_chunk fail with the Invalid CRC ParseError,
which is distinct from the EOF end-of-stream error, and the chunk is not
returned; in the parse loop this failure ends chunk iteration with the state
unchanged, so the chunk is discarded and no later chunk of the stream is
processed. -/
theorem C7_crc_mismatch (tag payload cb rest : List Nat)
    (htag : tag.length = 4) (hlen : payload.length < 2 ^ 32)
    (hcb : cb.length = 4) (hbytes : ∀ b ∈ cb, b < 256)
    (hne : beU32 cb ≠ crc (tag ++ payload)) :
    read_chunk (be4 payload.length ++ (tag ++ (payload ++ (cb ++ rest))))
        = .error (.ParseError ("Invalid CRC"))
      ∧ PNGParseError.ParseError ("Invalid CRC") ≠ PNGParseError.EOF
      ∧ ∀ (inflate : List Nat → Option (List Nat)) (st : PNGFile) (i : Nat)
          (dc : List Nat),
          runLoop inflate (be4 payload.length ++ (tag ++ (payload ++ (cb ++ rest))))
            st i dc = .ok st i dc := by
  have hmain : read_chunk (be4 payload.length ++ (tag ++ (payload ++ (cb ++ rest))))
      = .error (.ParseError ("Invalid CRC")) := by
    simp only [read_chunk]
    rw [List.take_left' (length_be4 _), List.drop_left' (length_be4 _)]
    rw [beU32_be4 _ hlen]
    rw [List.take_left' htag, List.drop_left' htag]
    rw [List.take_left, List.drop_left]
    rw [List.take_left' hcb]
    have c1 : ¬(be4 payload.length ++ (tag ++ (payload ++ (cb ++ rest)))).length
        < 4 := by
      simp [List.length_append, length_be4]
    have c2 : ¬(tag ++ (payload ++ (cb ++ rest))).length < 4 := by
      simp [List.length_append, htag]
    have c3 : ¬(payload ++ (cb ++ rest)).length < payload.length := by
      simp [List.length_append]
    have c4 : ¬(cb ++ rest).length < 4 := by
      simp [List.length_append, hcb]
    rw [if_neg c1, if_neg c2, if_neg c3, if_neg c4,
      if_pos (fun heq => hne heq.symm)]
  exact ⟨hmain, by decide, fun inflate st i dc => runLoop_error hmain inflate st i dc⟩

/-- Witness for C7: an IDAT frame with empty payload and transmitted CRC
bytes [0, 0, 0, 0], which differ from the CRC over the tag. -/
theorem C7_crc_mismatch_witness :
    (([73, 68, 65, 84] : List Nat).length = 4)
      ∧ (([] : List Nat).length < 2 ^ 32)
      ∧ (([0, 0, 0, 0] : List Nat).length = 4)
      ∧ (∀ b ∈ ([0, 0, 0, 0] : List Nat), b < 256)
      ∧ beU32 [0, 0, 0, 0] ≠ crc ([73, 68, 65, 84] ++ [])
      ∧ read_chunk (be4 ([] : List Nat).length ++ ([73, 68, 65, 84]
          ++ (([] : List Nat) ++ ([0, 0, 0, 0] ++ []))))
          = .error (.ParseError ("Invalid CRC"))
      ∧ runLoop (fun _ => none) (be4 ([] : List Nat).length ++ ([73, 68, 65, 84]
          ++ (([] : List Nat) ++ ([0, 0, 0, 0] ++ [])))) pngFileDefault 0 []
          = .ok pngFileDefault 0 [] := by
  have h := C7_crc_mismatch [73, 68, 65, 84] [] [0, 0, 0, 0] [] rfl (by decide)
    rfl (by decide) (by decide)
  exact ⟨rfl, by decide, rfl, by decide, by decide, h.1,
    h.2.2 (fun _ => none) pngFileDefault 0 []⟩

/-- C8 (amended): when the inflate adapter rejects the nonempty accumulated
IDAT buffer at an IEND chunk, the loop panics on the unwrap of the
decompressor result; no typed error is returned (PNGParseError has no
DecompressionFailure variant) and no partial image is produced. -/
theorem C8_inflate_failure_panics (inflate : List Nat → Option (List Nat))
    (st : PNGFile) (i : Nat) (dc p rest : List Nat) (hp : p.length < 2 ^ 32)
    (hdc : dc ≠ []) (hinf : inflate dc = none) :
    runLoop inflate (frame tagIEND p ++ rest) st i dc = .panic := by
  rw [runLoop_frame tagIEND p rest rfl hp, processChunk_IEND,
    if_pos (List.length_pos.mpr hdc), hinf]

/-- Witness for C8: a rejecting adapter with accumulated buffer [1]. -/
theorem C8_inflate_failure_panics_witness :
    (([] : List Nat).length < 2 ^ 32)
      ∧ ([1] : List Nat) ≠ []
      ∧ (fun _ : List Nat => (none : Option (List Nat))) [1] = none
      ∧ runLoop (fun _ => none) (frame tagIEND [] ++ []) pngFileDefault 0 [1]
          = .panic :=
  ⟨by decide, by decide, rfl,
    C8_inflate_failure_panics (fun _ => none) pngFileDefault 0 [1] [] []
      (by decide) (by decide) rfl⟩

/-- Counterexample for C8 as stated: with an adapter that rejects every
buffer, a stream with one IDAT chunk and an IEND chunk makes parse abort
with a panic instead of surfacing a typed DecompressionFailure result (no
such variant exists in PNGParseError). -/
theorem C8_no_typed_error_counterexample :
    parse (fun _ => none) pngFileDefault
        (png_signiture ++ (frame tagIDAT [1] ++ frame tagIEND [])) = .panic
      ∧ isErr (parse (fun _ => none) pngFileDefault
          (png_signiture ++ (frame tagIDAT [1] ++ frame tagIEND []))) = false :=
  ⟨by rfl, by rfl⟩

/-- The IHDR payload of the C9 test vector. -/
def ihdrPayload : List Nat := [0, 0, 0, 10, 0, 0, 0, 20, 8, 2, 0, 0, 0]

/-- C9: a parse whose first chunk is an IHDR frame with payload
[0,0,0,10, 0,0,0,20, 8,2,0,0,0] and that returns Ok yields the header
width 10, height 20, bit 8, color 2, compression 0, filter 0,
interlace 0, with width and height read big-endian at offsets 0..4 and 4..8
and the single-byte fields at offsets 8 through 12. -/
theorem C9_ihdr_header (inflate : List Nat → Option (List Nat)) (self : PNGFile)
    (rest : List Nat) (stF : PNGFile)
    (h : parse inflate self (png_signiture ++ (frame tagIHDR ihdrPayload ++ rest))
        = .ok stF) :
    stF.width = 10 ∧ stF.height = 20 ∧ stF.bit_depth = 8 ∧ stF.color_type = 2
      ∧ stF.compression_method = 0 ∧ stF.filter_method = 0
      ∧ stF.interlace_method = 0 := by
  rw [parse_signature_ok] at h
  rw [runLoop_frame tagIHDR ihdrPayload rest rfl (by decide),
    processChunk_IHDR0] at h
  dsimp only at h
  simp only [Nat.zero_add] at h
  cases hr : runLoop inflate rest
      (setHeader { self with chunks := [] } ihdrPayload) 1 [] with
  | panic =>
    simp only [hr] at h
    exact absurd h (by simp)
  | ok st2 i2 dc2 =>
    simp only [hr] at h
    have hst : st2 = stF := by
      injection h
    subst hst
    rw [runLoop] at hr
    have hh := parseLoop_headerOf inflate rest.length rest
      (setHeader { self with chunks := [] } ihdrPayload) 1 [] st2 i2 dc2
      (Nat.le_refl 1) hr
    simp only [headerOf, Prod.mk.injEq] at hh
    obtain ⟨e1, e2, e3, e4, e5, e6, e7⟩ := hh
    exact ⟨e1.trans rfl, e2.trans rfl, e3.trans rfl, e4.trans rfl,
      e5.trans rfl, e6.trans rfl, e7.trans rfl⟩

/-- Witness for C9: the concrete stream of a signature and one IHDR frame. -/
theorem C9_ihdr_header_witness :
    parse (fun _ => none) pngFileDefault
        (png_signiture ++ (frame tagIHDR ihdrPayload ++ []))
        = .ok { data := [], size := 0, width := 10, height := 20, pallette := [],
                bit_depth := 8, color_type := 2, filter_method := 0,
                compression_method := 0, interlace_method := 0, chunks := [] }
      ∧ (10 : Nat) = 10 ∧ (20 : Nat) = 20 ∧ (8 : Nat) = 8 ∧ (2 : Nat) = 2
      ∧ (0 : Nat) = 0 ∧ (0 : Nat) = 0 ∧ (0 : Nat) = 0 := by
  have hp : parse (fun _ => none) pngFileDefault
      (png_signiture ++ (frame tagIHDR ihdrPayload ++ []))
      = .ok { data := [], size := 0, width := 10, height := 20, pallette := [],
              bit_depth := 8, color_type := 2, filter_method := 0,
              compression_method := 0, interlace_method := 0, chunks := [] } := by
    decide
  have h9 := C9_ihdr_header (fun _ => none) pngFileDefault [] _ hp
  exact ⟨hp, h9.1, h9.2.1, h9.2.2.1, h9.2.2.2.1, h9.2.2.2.2.1,
    h9.2.2.2.2.2.1, h9.2.2.2.2.2.2⟩

/-- C10: a chunk with tag IHDR read at occurrence index greater than 0
leaves all header fields, the palette and the accumulated compressed buffer
unchanged, and is stored verbatim in the uninterpreted chunk map keyed by
its occurrence index. -/
theorem C10_ihdr_late_is_ancillary (inflate : List Nat → Option (List Nat))
    (st : PNGFile) (i : Nat) (dc p rest : List Nat) (hi : i ≠ 0)
    (hp : p.length < 2 ^ 32) :
    runLoop inflate (frame tagIHDR p ++ rest) st i dc
      = runLoop inflate rest
          { st with chunks := st.chunks ++ [(i, mkChunk tagIHDR p)] } (i + 1)
          dc := by
  rw [runLoop_frame tagIHDR p rest rfl hp,
    processChunk_IHDR_late inflate st i dc p hi]

/-- Witness for C10: an IHDR frame with empty payload at occurrence index 1. -/
theorem C10_ihdr_late_is_ancillary_witness :
    ((1 : Nat) ≠ 0)
      ∧ (([] : List Nat).length < 2 ^ 32)
      ∧ runLoop (fun _ => none) (frame tagIHDR [] ++ []) pngFileDefault 1 []
          = runLoop (fun _ => none) []
              { pngFileDefault with
                chunks := pngFileDefault.chunks ++ [(1, mkChunk tagIHDR [])] } 2
              [] :=
  ⟨by decide, by decide,
    C10_ihdr_late_is_ancillary (fun _ => none) pngFileDefault 1 [] [] []
      (by decide) (by decide)⟩

end Ruro
